import Mathlib

/-!
Verification of the gotpl FFI render bridge (`src/lib.rs`).

The Rust function `render_template` marshals the template text and the
JSON-serialized data into C strings, calls the foreign Go entry point
`RenderTemplate(template, data, escape_html)`, lossily decodes the two
returned buffers, frees both buffers with `FreeResultString`, and returns
`Ok(output)` or `Err(TemplateError(error))` according to whether the decoded
error string is empty.

The foreign engine is modelled as an oracle function from the two marshaled
strings and the escape flag to the two returned byte buffers.  The FFI side
effects (buffer allocation, the call itself, buffer release) are recorded in
an explicit event trace threaded through the computation, so that claims
about "the deallocation function is invoked exactly once per handle" and
"the entry point is invoked zero times" become statements about the trace.
-/

deriving instance DecidableEq for Except

/-- One positional argument passed across the FFI boundary. -/
inductive FfiArg where
| str : String → FfiArg
| boolean : Bool → FfiArg
deriving DecidableEq, Repr

/-- An observable FFI event: a buffer allocation by the foreign side (with its
handle), an invocation of the foreign entry point (with the positional
argument list actually passed), or a release of a handle via the foreign
deallocation function. -/
inductive Event where
| alloc : Nat → Event
| call : List FfiArg → Event
| free : Nat → Event
deriving DecidableEq, Repr

/-- The state of the FFI boundary: a fresh-handle counter and the trace of
events so far. -/
structure FfiState where
  nextHandle : Nat
  events : List Event
deriving DecidableEq, Repr

/-- The raw record returned by the foreign entry point: two foreign-owned
buffer handles together with the bytes stored in each buffer. -/
structure GoResult where
  outputHandle : Nat
  errorHandle : Nat
  outputBytes : List Nat
  errorBytes : List Nat
deriving DecidableEq, Repr

/-- The foreign engine as an oracle: from the template C-string content, the
JSON data C-string content and the escape flag to the (output, error) byte
buffers it allocates. -/
def Engine : Type := String → String → Bool → List Nat × List Nat

/-- UTF-8 encoding of one character, from the scalar value. -/
def charUtf8 (c : Char) : List Nat :=
  if c.toNat < 0x80 then [c.toNat]
  else if c.toNat < 0x800 then [0xC0 + c.toNat / 0x40, 0x80 + c.toNat % 0x40]
  else if c.toNat < 0x10000 then
    [0xE0 + c.toNat / 0x1000, 0x80 + c.toNat / 0x40 % 0x40, 0x80 + c.toNat % 0x40]
  else
    [0xF0 + c.toNat / 0x40000, 0x80 + c.toNat / 0x1000 % 0x40,
     0x80 + c.toNat / 0x40 % 0x40, 0x80 + c.toNat % 0x40]

/-- The UTF-8 byte sequence of a Rust `&str` (Lean `String`). -/
def strBytes (s : String) : List Nat :=
  s.data.foldr (fun c acc => charUtf8 c ++ acc) []

/-- Decimal digits of a natural number, fuel-recursive. -/
def natToStrCore : Nat → Nat → List Char
| 0, _ => []
| fuel + 1, n =>
  if n < 10 then [Char.ofNat (48 + n)]
  else natToStrCore fuel (n / 10) ++ [Char.ofNat (48 + n % 10)]

/-- Decimal rendering of a natural number. -/
def natToStr (n : Nat) : String := String.mk (natToStrCore (n + 1) n)

/-- Decimal rendering of an integer (Rust `{}` formatting of an integer). -/
def intToStr (n : Int) : String :=
  if n < 0 then "-" ++ natToStr n.natAbs else natToStr n.toNat

/-- `CString::new` from the Rust standard library: fails when the byte
representation contains an interior nul byte, with `NulError` displaying the
byte position; otherwise wraps the string unchanged. -/
def cstringNew (s : String) : Except String String :=
  match (strBytes s).findIdx? (fun b => b == 0) with
  | some i => Except.error ("nul byte found in provided data at position: " ++ natToStr i)
  | none => Except.ok s

/-- `CStr::from_ptr` reads a returned buffer up to (and excluding) the first
nul byte. -/
def cstrBytes (l : List Nat) : List Nat := l.takeWhile (fun b => b != 0)

/-- The Unicode replacement character. -/
def fffd : Char := Char.ofNat 0xFFFD

/-- Is a byte a UTF-8 continuation byte? -/
def isCont (b : Nat) : Bool := 0x80 ≤ b && b ≤ 0xBF

/-- Lower bound for the first continuation byte, depending on the lead byte
(the E0/F0 special ranges of well-formed UTF-8). -/
def cont1Lo (b : Nat) : Nat := if b = 0xE0 then 0xA0 else if b = 0xF0 then 0x90 else 0x80

/-- Upper bound for the first continuation byte, depending on the lead byte
(the ED/F4 special ranges of well-formed UTF-8). -/
def cont1Hi (b : Nat) : Nat := if b = 0xED then 0x9F else if b = 0xF4 then 0x8F else 0xBF

/-- `String::from_utf8_lossy`: decode a byte sequence, replacing each maximal
invalid subpart with one replacement character (the substitution of maximal
subparts, as the Rust standard library implements it).  The first argument is
fuel; each step consumes at least one byte, so fuel `length + 1` always
suffices. -/
def utf8LossyAux : Nat → List Nat → List Char
| 0, _ => []
| _, [] => []
| fuel + 1, b :: rest =>
  if b ≤ 0x7F then Char.ofNat b :: utf8LossyAux fuel rest
  else if 0xC2 ≤ b && b ≤ 0xDF then
    match rest with
    | [] => [fffd]
    | c1 :: rest1 =>
      if isCont c1 then Char.ofNat ((b - 0xC0) * 0x40 + (c1 - 0x80)) :: utf8LossyAux fuel rest1
      else fffd :: utf8LossyAux fuel (c1 :: rest1)
  else if 0xE0 ≤ b && b ≤ 0xEF then
    match rest with
    | [] => [fffd]
    | c1 :: rest1 =>
      if cont1Lo b ≤ c1 && c1 ≤ cont1Hi b then
        match rest1 with
        | [] => [fffd]
        | c2 :: rest2 =>
          if isCont c2 then
            Char.ofNat ((b - 0xE0) * 0x1000 + (c1 - 0x80) * 0x40 + (c2 - 0x80)) :: utf8LossyAux fuel rest2
          else fffd :: utf8LossyAux fuel (c2 :: rest2)
      else fffd :: utf8LossyAux fuel (c1 :: rest1)
  else if 0xF0 ≤ b && b ≤ 0xF4 then
    match rest with
    | [] => [fffd]
    | c1 :: rest1 =>
      if cont1Lo b ≤ c1 && c1 ≤ cont1Hi b then
        match rest1 with
        | [] => [fffd]
        | c2 :: rest2 =>
          if isCont c2 then
            match rest2 with
            | [] => [fffd]
            | c3 :: rest3 =>
              if isCont c3 then
                Char.ofNat ((b - 0xF0) * 0x40000 + (c1 - 0x80) * 0x1000 + (c2 - 0x80) * 0x40 + (c3 - 0x80)) :: utf8LossyAux fuel rest3
              else fffd :: utf8LossyAux fuel (c3 :: rest3)
          else fffd :: utf8LossyAux fuel (c2 :: rest2)
      else fffd :: utf8LossyAux fuel (c1 :: rest1)
  else fffd :: utf8LossyAux fuel rest

/-- `to_string_lossy().into_owned()` on a decoded byte buffer. -/
def utf8Lossy (l : List Nat) : String := String.mk (utf8LossyAux (l.length + 1) l)

/-- `pub struct TemplateError(String)` from `src/lib.rs`: a newtype wrapping
one flat message string. -/
structure TemplateError where
  msg : String
deriving DecidableEq, Repr

/-- The foreign entry point `RenderTemplate`, as called at `src/lib.rs:66-71`:
it receives the template C string, the JSON data C string and the
`escape_html` flag positionally, allocates two fresh result buffers filled by
the engine oracle, and records the allocation and call events. -/
def RenderTemplate (env : Engine) (t j : String) (esc : Bool) (st : FfiState) :
    GoResult × FfiState :=
  let bufs := env t j esc
  (⟨st.nextHandle, st.nextHandle + 1, bufs.1, bufs.2⟩,
   ⟨st.nextHandle + 2,
    st.events ++ [Event.alloc st.nextHandle, Event.alloc (st.nextHandle + 1),
      Event.call [FfiArg.str t, FfiArg.str j, FfiArg.boolean esc]]⟩)

/-- The foreign deallocation function `FreeResultString`: records the release
of one handle. -/
def FreeResultString (h : Nat) (st : FfiState) : FfiState :=
  ⟨st.nextHandle, st.events ++ [Event.free h]⟩

/-- `render_template` from `src/lib.rs:39-89`.  The data argument is
represented by the outcome of `serde_json::to_string` on it (the only use the
source makes of the generic data value): `Except.ok json` for successful
serialization, `Except.error msg` when the value's serializer reports `msg`.

Source order: convert the template to a C string, serialize the data,
convert the JSON text to a C string, call `RenderTemplate`, lossily decode
both returned buffers, free both handles, then branch on emptiness of the
decoded error string. -/
def render_template (env : Engine) (template_content : String)
    (ser : Except String String) (escape_html : Bool) (st : FfiState) :
    Except TemplateError String × FfiState :=
  match cstringNew template_content with
  | Except.error e =>
    (Except.error ⟨"Failed to convert template content to CString: " ++ e⟩, st)
  | Except.ok c_template_content =>
    match ser with
    | Except.error e =>
      (Except.error ⟨"Failed to serialize data to JSON: " ++ e⟩, st)
    | Except.ok json_data_string =>
      match cstringNew json_data_string with
      | Except.error e =>
        (Except.error ⟨"Failed to convert JSON data string to CString: " ++ e⟩, st)
      | Except.ok c_json_data =>
        let rs := RenderTemplate env c_template_content c_json_data escape_html st
        let result := rs.1
        let output := utf8Lossy (cstrBytes result.outputBytes)
        let error := utf8Lossy (cstrBytes result.errorBytes)
        let st2 := FreeResultString result.outputHandle rs.2
        let st3 := FreeResultString result.errorHandle st2
        if error ≠ "" then (Except.error ⟨error⟩, st3) else (Except.ok output, st3)

/-- One render request: template text, serialization outcome of the data,
and the escape flag. -/
structure Request where
  template : String
  ser : Except String String
  escape_html : Bool

/-- Run a sequence of render calls, threading the FFI state. -/
def runBatch (env : Engine) : List Request → FfiState → FfiState
| [], st => st
| r :: rs, st => runBatch env rs (render_template env r.template r.ser r.escape_html st).2

/-- Handles allocated by the foreign side, in trace order. -/
def allocsOf (es : List Event) : List Nat :=
  es.filterMap fun e => match e with | Event.alloc h => some h | _ => none

/-- Handles passed to the foreign deallocation function, in trace order. -/
def freesOf (es : List Event) : List Nat :=
  es.filterMap fun e => match e with | Event.free h => some h | _ => none

/-- Argument lists of the invocations of the foreign entry point, in trace
order. -/
def callsOf (es : List Event) : List (List FfiArg) :=
  es.filterMap fun e => match e with | Event.call a => some a | _ => none

/-- A `serde_json::Value`: JSON data as the host passes it.  `obj` holds its
entries in the order `serde_json`'s `BTreeMap` iterates them (sorted by key),
which is the order `to_string` writes them. -/
inductive Json where
| null : Json
| bool : Bool → Json
| int : Int → Json
| str : String → Json
| arr : List Json → Json
| obj : List (String × Json) → Json

/-- One lowercase hexadecimal digit, as `serde_json` writes it. -/
def hexDigit (n : Nat) : Char :=
  if n < 10 then Char.ofNat (48 + n) else Char.ofNat (87 + n)

/-- `serde_json`'s escaping of one character inside a JSON string literal:
the quote and the backslash get a backslash escape, the control characters
below 0x20 get their short escape (`\b`, `\t`, `\n`, `\f`, `\r`) or a
`\u00XX` escape, and every other character is written as itself. -/
def escJsonChar (c : Char) : String :=
  if c = Char.ofNat 34 then "\\\""
  else if c = Char.ofNat 92 then "\\\\"
  else if c.toNat = 8 then "\\b"
  else if c.toNat = 9 then "\\t"
  else if c.toNat = 10 then "\\n"
  else if c.toNat = 12 then "\\f"
  else if c.toNat = 13 then "\\r"
  else if c.toNat < 0x20 then
    "\\u00" ++ String.mk [hexDigit (c.toNat / 16), hexDigit (c.toNat % 16)]
  else String.mk [c]

/-- A JSON string literal: quote, escaped characters, quote. -/
def jsonStrLit (s : String) : String :=
  "\"" ++ s.data.foldr (fun c acc => escJsonChar c ++ acc) "" ++ "\""

mutual
/-- `serde_json::to_string` on a `Value`: compact JSON text. -/
def jsonToStr : Json → String
| Json.null => "null"
| Json.bool b => if b then "true" else "false"
| Json.int n => intToStr n
| Json.str s => jsonStrLit s
| Json.arr xs => "[" ++ jsonListToStr xs ++ "]"
| Json.obj kvs => "\x7b" ++ jsonObjToStr kvs ++ "\x7d"
/-- Comma-separated serialization of an array's elements. -/
def jsonListToStr : List Json → String
| [] => ""
| [x] => jsonToStr x
| x :: y :: xs => jsonToStr x ++ "," ++ jsonListToStr (y :: xs)
/-- Comma-separated serialization of an object's entries. -/
def jsonObjToStr : List (String × Json) → String
| [] => ""
| [(k, v)] => jsonStrLit k ++ ":" ++ jsonToStr v
| (k, v) :: e :: kvs => jsonStrLit k ++ ":" ++ jsonToStr v ++ "," ++ jsonObjToStr (e :: kvs)
end

/-- Render a `Json` data value: `render_template` applied to the outcome of
serializing it, which for a `serde_json::Value` always succeeds. -/
def renderJson (env : Engine) (template_content : String) (data : Json)
    (escape_html : Bool) (st : FfiState) : Except TemplateError String × FfiState :=
  render_template env template_content (Except.ok (jsonToStr data)) escape_html st

/-- Modelled from the spec: the HTML escaping the external engine applies when
`escape_html` is set — the characters meaningful to HTML markup are replaced
by their entities (section 4.3 of the spec; the entity spellings follow the
expected outputs recorded in the repository's tests). -/
def escHtmlChar (c : Char) : String :=
  if c = Char.ofNat 60 then "&lt;"
  else if c = Char.ofNat 62 then "&gt;"
  else if c = Char.ofNat 38 then "&amp;"
  else if c = Char.ofNat 39 then "&#39;"
  else if c = Char.ofNat 34 then "&#34;"
  else String.mk [c]

/-- Modelled from the spec: HTML-escape a whole string. -/
def escHtml (s : String) : String :=
  s.data.foldr (fun c acc => escHtmlChar c ++ acc) ""

/-- Parse a JSON string literal body up to the closing quote (the opening
quote already consumed); returns the content and the remainder.  Part of the
spec-modelled engine; escape sequences are not needed by the modelled inputs
and are not handled. -/
def parseStrLit : List Char → Option (String × List Char)
| [] => none
| c :: rest =>
  if c = Char.ofNat 34 then some ("", rest)
  else
    match parseStrLit rest with
    | some (s, r) => some (String.mk (c :: s.data), r)
    | none => none

/-- Modelled from the spec: parse the fields of a flat JSON object (string and
integer values), fuel-recursive, returning each value in its rendered form.
The external engine's own JSON decoding lives in `src/go_ffi/ffi.go`, which is
not among the sources; the spec fixes only that the data payload is JSON text
using standard grammar. -/
def parseFields : Nat → List Char → Option (List (String × String))
| 0, _ => none
| fuel + 1, l =>
  match l with
  | c :: rest =>
    if c = Char.ofNat 34 then
      match parseStrLit rest with
      | some (key, r1) =>
        match r1 with
        | c2 :: r2 =>
          if c2 = Char.ofNat 58 then
            match r2 with
            | c3 :: r3 =>
              if c3 = Char.ofNat 34 then
                match parseStrLit r3 with
                | some (v, r4) =>
                  match r4 with
                  | [] => none
                  | c5 :: r5 =>
                    if c5 = Char.ofNat 44 then
                      match parseFields fuel r5 with
                      | some fields => some ((key, v) :: fields)
                      | none => none
                    else if c5 = Char.ofNat 125 && r5 = [] then some [(key, v)]
                    else none
                | none => none
              else
                match r2.takeWhile (fun d => d.isDigit), r2.dropWhile (fun d => d.isDigit) with
                | [], _ => none
                | ds, r4 =>
                  match r4 with
                  | [] => none
                  | c5 :: r5 =>
                    if c5 = Char.ofNat 44 then
                      match parseFields fuel r5 with
                      | some fields => some ((key, String.mk ds) :: fields)
                      | none => none
                    else if c5 = Char.ofNat 125 && r5 = [] then some [(key, String.mk ds)]
                    else none
            | [] => none
          else none
        | [] => none
      | none => none
    else none
  | [] => none

/-- Modelled from the spec: parse a flat JSON object into its fields. -/
def goParse (s : String) : Option (List (String × String)) :=
  match s.data with
  | c :: rest =>
    if c = Char.ofNat 123 then
      if rest = [Char.ofNat 125] then some []
      else parseFields (rest.length + 1) rest
    else none
  | [] => none

/-- Look a key up among the parsed fields. -/
def lookupField : List (String × String) → String → Option String
| [], _ => none
| (k, v) :: rest, key => if k = key then some v else lookupField rest key

/-- Modelled from the spec: substitution of `{{.key}}` directives against the
parsed data fields, fuel-recursive over the template characters; a referenced
key absent from the data fails the render (the engine's missing-key
behavior), and substituted values are HTML-escaped when the flag is set. -/
def substT (fields : List (String × String)) (esc : Bool) : Nat → List Char → Option String
| 0, _ => none
| _, [] => some ""
| fuel + 1, l =>
  match l with
  | c0 :: c1 :: c2 :: rest =>
    if c0 = Char.ofNat 123 && c1 = Char.ofNat 123 && c2 = Char.ofNat 46 then
      let key := rest.takeWhile (fun c => c != Char.ofNat 125)
      match rest.dropWhile (fun c => c != Char.ofNat 125) with
      | c3 :: c4 :: rest2 =>
        if c3 = Char.ofNat 125 && c4 = Char.ofNat 125 then
          match lookupField fields (String.mk key) with
          | some v =>
            match substT fields esc fuel rest2 with
            | some t => some ((if esc then escHtml v else v) ++ t)
            | none => none
          | none => none
        else none
      | _ => none
    else
      match substT fields esc fuel (c1 :: c2 :: rest) with
      | some t => some (String.mk [c0] ++ t)
      | none => none
  | c0 :: rest =>
    match substT fields esc fuel rest with
    | some t => some (String.mk [c0] ++ t)
    | none => none
  | [] => some ""

/-- Modelled from the spec: the external Go template engine behind the
boundary contract (its source, `src/go_ffi/ffi.go`, is not among the sources
under src/).  It decodes the JSON data payload, substitutes `{{.key}}`
directives, escapes HTML in substituted values when the flag is set, and
reports failures through a non-empty error buffer while leaving the output
buffer empty. -/
def goEngine : Engine := fun tmpl json esc =>
  match goParse json with
  | none => ([], strBytes "invalid data")
  | some fields =>
    match substT fields esc (tmpl.data.length + 1) tmpl.data with
    | some out => (strBytes out, [])
    | none => ([], strBytes "template: missing key")

/-- Modelled from the spec: the missing-key policy of `RenderOptions`
(section 4.5); the richer bridge variant holding it is not among the sources
under src/. -/
inductive MissingKeyPolicy where
| ErrorOnMissing : MissingKeyPolicy
| ZeroOnMissing : MissingKeyPolicy
deriving DecidableEq, Repr

/-- Modelled from the spec: the finalized rendering configuration. -/
structure RenderOptions where
  escape_html : Bool
  missing_key_policy : MissingKeyPolicy
deriving DecidableEq, Repr

/-- Modelled from the spec: the Configuration Builder — a pre-build options
record with chained setters and a finalizing `build`. -/
structure Builder where
  opts : RenderOptions
deriving DecidableEq, Repr

/-- Modelled from the spec: a fresh builder starts from the conservative
defaults. -/
def Builder.new : Builder := ⟨⟨true, MissingKeyPolicy.ErrorOnMissing⟩⟩

/-- Modelled from the spec: chained setter for the escaping flag. -/
def Builder.setEscapeHtml (b : Builder) (v : Bool) : Builder :=
  ⟨⟨v, b.opts.missing_key_policy⟩⟩

/-- Modelled from the spec: chained setter for the missing-key policy. -/
def Builder.setMissingKeyPolicy (b : Builder) (p : MissingKeyPolicy) : Builder :=
  ⟨⟨b.opts.escape_html, p⟩⟩

/-- Modelled from the spec: `build` finalizes the options. -/
def Builder.build (b : Builder) : RenderOptions := b.opts

/-- The resource bookkeeping a correct trace satisfies: the freed handles are
a permutation of the allocated handles (every allocation released, nothing
released twice or released without an allocation), the allocated handles are
pairwise distinct, every allocated handle is below the fresh-handle counter,
and the number of releases is twice the number of entry-point invocations. -/
def GoodTrace (st : FfiState) : Prop :=
  (freesOf st.events).Perm (allocsOf st.events) ∧
  (allocsOf st.events).Nodup ∧
  (∀ h ∈ allocsOf st.events, h < st.nextHandle) ∧
  (freesOf st.events).length = 2 * (callsOf st.events).length

/-- The message `render_template` produces for a template whose first byte is
an embedded nul. -/
def msgInvalidTemplate : String :=
  "Failed to convert template content to CString: nul byte found in provided data at position: 0"

/-- A stub engine returning two empty buffers. -/
def engineEmpty : Engine := fun _ _ _ => ([], [])

/-- A stub engine whose error buffer spells, verbatim, the message the bridge
uses for an invalid template marshaling failure. -/
def engineConstErr : Engine := fun _ _ _ => ([], strBytes msgInvalidTemplate)

/-- A stub engine whose output buffer is not valid UTF-8 (a stray 0xFF byte
between `H` and `i`). -/
def engineBadUtf8 : Engine := fun _ _ _ => ([0x48, 0xFF, 0x69], [])

/-- A template consisting of a single nul character. -/
def nulTemplate : String := String.mk [Char.ofNat 0]

/-- A data value holding a string with an embedded nul character. -/
def nulData : Json := Json.obj [("k", Json.str (String.mk [Char.ofNat 0]))]

theorem cstringNew_ok_eq {s x : String} (h : cstringNew s = Except.ok x) : x = s := by
  unfold cstringNew at h
  split at h
  · exact absurd h (by simp)
  · exact (Except.ok.injEq _ _).mp h.symm

theorem render_template_state (env : Engine) (t : String) (ser : Except String String)
    (esc : Bool) (st : FfiState) :
    (render_template env t ser esc st).2 = st ∨
    ∃ j, ser = Except.ok j ∧
      (render_template env t ser esc st).2 =
        ⟨st.nextHandle + 2,
         st.events ++ [Event.alloc st.nextHandle, Event.alloc (st.nextHandle + 1),
           Event.call [FfiArg.str t, FfiArg.str j, FfiArg.boolean esc],
           Event.free st.nextHandle, Event.free (st.nextHandle + 1)]⟩ := by
  rcases hc : cstringNew t with e | ct
  · left; simp [render_template, hc]
  rcases hs : ser with e | j
  · left; simp [render_template, hc]
  rcases hj : cstringNew j with e | cj
  · left; simp [render_template, hc, hj]
  · right
    refine ⟨j, rfl, ?_⟩
    have hct : ct = t := cstringNew_ok_eq hc
    have hcj : cj = j := cstringNew_ok_eq hj
    subst hct hcj
    simp only [render_template, hc, hj, RenderTemplate, FreeResultString]
    split <;> simp [List.append_assoc]

theorem allocsOf_append (a b : List Event) : allocsOf (a ++ b) = allocsOf a ++ allocsOf b :=
  List.filterMap_append _ _ _

theorem freesOf_append (a b : List Event) : freesOf (a ++ b) = freesOf a ++ freesOf b :=
  List.filterMap_append _ _ _

theorem callsOf_append (a b : List Event) : callsOf (a ++ b) = callsOf a ++ callsOf b :=
  List.filterMap_append _ _ _

theorem allocsOf_delta (n : Nat) (a : List FfiArg) :
    allocsOf [Event.alloc n, Event.alloc (n + 1), Event.call a,
      Event.free n, Event.free (n + 1)] = [n, n + 1] := rfl

theorem freesOf_delta (n : Nat) (a : List FfiArg) :
    freesOf [Event.alloc n, Event.alloc (n + 1), Event.call a,
      Event.free n, Event.free (n + 1)] = [n, n + 1] := rfl

theorem callsOf_delta (n : Nat) (a : List FfiArg) :
    callsOf [Event.alloc n, Event.alloc (n + 1), Event.call a,
      Event.free n, Event.free (n + 1)] = [a] := rfl

theorem goodTrace_render (env : Engine) (t : String) (ser : Except String String)
    (esc : Bool) (st : FfiState) (h : GoodTrace st) :
    GoodTrace (render_template env t ser esc st).2 := by
  rcases render_template_state env t ser esc st with heq | ⟨j, _, heq⟩
  · rw [heq]; exact h
  · rw [heq]
    obtain ⟨hperm, hnodup, hbound, hlen⟩ := h
    refine ⟨?_, ?_, ?_, ?_⟩
    · simp only [freesOf_append, allocsOf_append, freesOf_delta, allocsOf_delta]
      exact hperm.append (List.Perm.refl _)
    · simp only [allocsOf_append, allocsOf_delta]
      rw [List.nodup_append]
      refine ⟨hnodup, by simp, ?_⟩
      intro x hx hmem
      have hb := hbound x hx
      simp only [List.mem_cons, List.mem_singleton, List.not_mem_nil] at hmem
      rcases hmem with rfl | hmem
      · omega
      · rcases hmem with rfl | hmem
        · omega
        · exact hmem
    · intro x hx
      dsimp only
      simp only [allocsOf_append, allocsOf_delta, List.mem_append, List.mem_cons,
        List.mem_singleton] at hx
      rcases hx with hx | hx
      · have := hbound x hx; omega
      · rcases hx with rfl | hx
        · omega
        · rcases hx with rfl | hx
          · omega
          · simp at hx
    · simp only [freesOf_append, callsOf_append, freesOf_delta, callsOf_delta,
        List.length_append]
      rw [hlen]
      simp
      omega

theorem goodTrace_runBatch (env : Engine) (reqs : List Request) (st : FfiState)
    (h : GoodTrace st) : GoodTrace (runBatch env reqs st) := by
  induction reqs generalizing st with
  | nil => exact h
  | cons r rs ih => exact ih _ (goodTrace_render env r.template r.ser r.escape_html st h)

/-- C1: for every render call in which the foreign entry point returns, the
foreign deallocation function is invoked exactly once on each of the two
returned handles: over any sequence of render calls, the released handles are
a permutation of the allocated handles (no leak, no release of a foreign
handle that was never allocated), the allocated handles are pairwise distinct
(so the permutation means exactly once each — no double-free), and the number
of releases is exactly twice the number of foreign entry-point invocations. -/
theorem render_batch_releases_each_handle_once (env : Engine) (reqs : List Request) :
    (freesOf (runBatch env reqs ⟨0, []⟩).events).Perm
      (allocsOf (runBatch env reqs ⟨0, []⟩).events) ∧
    (allocsOf (runBatch env reqs ⟨0, []⟩).events).Nodup ∧
    (freesOf (runBatch env reqs ⟨0, []⟩).events).length =
      2 * (callsOf (runBatch env reqs ⟨0, []⟩).events).length := by
  have h := goodTrace_runBatch env reqs ⟨0, []⟩
    ⟨List.Perm.refl _, List.nodup_nil, by intro x hx; simp [allocsOf] at hx, rfl⟩
  exact ⟨h.1, h.2.1, h.2.2.2⟩

theorem utf8LossyAux_cons_ne_nil (fuel b : Nat) (rest : List Nat) :
    utf8LossyAux (fuel + 1) (b :: rest) ≠ [] := by
  unfold utf8LossyAux
  repeat' split
  all_goals simp

theorem utf8Lossy_eq_empty_iff (l : List Nat) : utf8Lossy l = "" ↔ l = [] := by
  constructor
  · intro h
    cases l with
    | nil => rfl
    | cons b rest =>
      exfalso
      apply utf8LossyAux_cons_ne_nil (rest.length + 1) b rest
      have : utf8Lossy (b :: rest) = "" := h
      unfold utf8Lossy at this
      simpa [List.length_cons] using congrArg String.data this
  · intro h; subst h; rfl

theorem utf8Lossy_nil : utf8Lossy [] = "" := rfl

theorem render_template_ok_path (env : Engine) (t j : String) (esc : Bool) (st : FfiState)
    (ht : cstringNew t = Except.ok t) (hj : cstringNew j = Except.ok j) :
    (render_template env t (Except.ok j) esc st).1 =
      if utf8Lossy (cstrBytes (env t j esc).2) ≠ "" then
        Except.error ⟨utf8Lossy (cstrBytes (env t j esc).2)⟩
      else Except.ok (utf8Lossy (cstrBytes (env t j esc).1)) := by
  simp only [render_template, ht, hj, RenderTemplate]
  split <;> rfl

theorem charUtf8_ne_zero (c : Char) (hc : c.toNat ≠ 0) : ∀ b ∈ charUtf8 c, b ≠ 0 := by
  intro b hb
  unfold charUtf8 at hb
  split at hb
  · simp at hb; omega
  · split at hb
    · simp at hb; rcases hb with rfl | rfl <;> omega
    · split at hb
      · simp at hb; rcases hb with rfl | rfl | rfl <;> omega
      · simp at hb; rcases hb with rfl | rfl | rfl | rfl <;> omega

theorem foldrBytes_ne_zero (l : List Char) (hl : ∀ c ∈ l, c.toNat ≠ 0) :
    ∀ b ∈ l.foldr (fun c acc => charUtf8 c ++ acc) [], b ≠ 0 := by
  induction l with
  | nil => simp
  | cons c cs ih =>
    intro b hb
    simp only [List.foldr_cons, List.mem_append] at hb
    rcases hb with hb | hb
    · exact charUtf8_ne_zero c (hl c (by simp)) b hb
    · exact ih (fun x hx => hl x (by simp [hx])) b hb

theorem strBytes_ne_zero (s : String) (hs : ∀ c ∈ s.data, c.toNat ≠ 0) :
    ∀ b ∈ strBytes s, b ≠ 0 := by
  unfold strBytes
  exact foldrBytes_ne_zero s.data hs

theorem cstringNew_ok_of_ne_zero (s : String) (h : ∀ b ∈ strBytes s, b ≠ 0) :
    cstringNew s = Except.ok s := by
  unfold cstringNew
  have hnone : (strBytes s).findIdx? (fun b => b == 0) = none := by
    rw [List.findIdx?_eq_none_iff]
    intro x hx
    simpa using h x hx
  rw [hnone]

theorem string_data_append (a b : String) : (a ++ b).data = a.data ++ b.data := rfl

theorem hexDigit_ne_zero (n : Nat) (h : n < 16) : (hexDigit n).toNat ≠ 0 := by
  interval_cases n <;> decide

theorem escJsonChar_ne_zero (c : Char) : ∀ d ∈ (escJsonChar c).data, d.toNat ≠ 0 := by
  intro d hd
  unfold escJsonChar at hd
  split at hd
  · simp at hd; rcases hd with rfl | rfl <;> decide
  · split at hd
    · simp at hd; subst hd; decide
    · split at hd
      · simp at hd; rcases hd with rfl | rfl <;> decide
      · split at hd
        · simp at hd; rcases hd with rfl | rfl <;> decide
        · split at hd
          · simp at hd; rcases hd with rfl | rfl <;> decide
          · split at hd
            · simp at hd; rcases hd with rfl | rfl <;> decide
            · split at hd
              · simp at hd; rcases hd with rfl | rfl <;> decide
              · split at hd
                · rename_i hlt
                  rw [string_data_append] at hd
                  simp only [List.mem_append] at hd
                  rcases hd with hd | hd
                  · simp at hd
                    rcases hd with rfl | rfl | rfl | rfl <;> decide
                  · simp at hd
                    rcases hd with rfl | rfl
                    · exact hexDigit_ne_zero _ (by omega)
                    · exact hexDigit_ne_zero _ (by omega)
                · rename_i hge
                  simp at hd
                  subst hd
                  omega

theorem jsonStrLit_ne_zero (s : String) : ∀ d ∈ (jsonStrLit s).data, d.toNat ≠ 0 := by
  intro d hd
  unfold jsonStrLit at hd
  rw [string_data_append, string_data_append] at hd
  simp only [List.mem_append] at hd
  rcases hd with hd | hd
  · rcases hd with hd | hd
    · simp at hd; subst hd; decide
    · revert hd
      generalize s.data = l
      intro hd
      induction l with
      | nil => simp at hd
      | cons c cs ih =>
        simp only [List.foldr_cons] at hd
        rw [show ((escJsonChar c ++ cs.foldr (fun c acc => escJsonChar c ++ acc) "") : String).data =
          (escJsonChar c).data ++ (cs.foldr (fun c acc => escJsonChar c ++ acc) "").data from rfl] at hd
        simp only [List.mem_append] at hd
        rcases hd with hd | hd
        · exact escJsonChar_ne_zero c d hd
        · exact ih hd
  · simp at hd; subst hd; decide

theorem natToStrCore_ne_zero (fuel : Nat) : ∀ n : Nat, ∀ c ∈ natToStrCore fuel n, c.toNat ≠ 0 := by
  induction fuel with
  | zero => intro n c hc; simp [natToStrCore] at hc
  | succ f ih =>
    intro n c hc
    unfold natToStrCore at hc
    split at hc
    · rename_i hn
      simp at hc
      subst hc
      interval_cases n <;> decide
    · simp only [List.mem_append] at hc
      rcases hc with hc | hc
      · exact ih _ c hc
      · simp at hc
        subst hc
        have h10 : n % 10 < 10 := Nat.mod_lt _ (by omega)
        set k := n % 10 with hk
        interval_cases k <;> decide

theorem natToStr_ne_zero (n : Nat) : ∀ c ∈ (natToStr n).data, c.toNat ≠ 0 := by
  intro c hc
  unfold natToStr at hc
  exact natToStrCore_ne_zero _ _ c hc

theorem intToStr_ne_zero (n : Int) : ∀ c ∈ (intToStr n).data, c.toNat ≠ 0 := by
  intro c hc
  unfold intToStr at hc
  split at hc
  · rw [string_data_append] at hc
    simp only [List.mem_append] at hc
    rcases hc with hc | hc
    · simp at hc; subst hc; decide
    · exact natToStr_ne_zero _ c hc
  · exact natToStr_ne_zero _ c hc

mutual
theorem jsonToStr_ne_zero (j : Json) : ∀ c ∈ (jsonToStr j).data, c.toNat ≠ 0 := by
  intro c hc
  match j with
  | Json.null => revert c hc; decide
  | Json.bool b =>
    unfold jsonToStr at hc
    cases b
    · revert c hc; decide
    · revert c hc; decide
  | Json.int n =>
    unfold jsonToStr at hc
    exact intToStr_ne_zero n c hc
  | Json.str s =>
    unfold jsonToStr at hc
    exact jsonStrLit_ne_zero s c hc
  | Json.arr xs =>
    unfold jsonToStr at hc
    rw [string_data_append, string_data_append] at hc
    simp only [List.mem_append] at hc
    rcases hc with (hc | hc) | hc
    · simp at hc; subst hc; decide
    · exact jsonListToStr_ne_zero xs c hc
    · simp at hc; subst hc; decide
  | Json.obj kvs =>
    unfold jsonToStr at hc
    rw [string_data_append, string_data_append] at hc
    simp only [List.mem_append] at hc
    rcases hc with (hc | hc) | hc
    · simp at hc; subst hc; decide
    · exact jsonObjToStr_ne_zero kvs c hc
    · simp at hc; subst hc; decide

theorem jsonListToStr_ne_zero (xs : List Json) : ∀ c ∈ (jsonListToStr xs).data, c.toNat ≠ 0 := by
  intro c hc
  match xs with
  | [] => revert c hc; decide
  | [x] =>
    unfold jsonListToStr at hc
    exact jsonToStr_ne_zero x c hc
  | x :: y :: rest =>
    unfold jsonListToStr at hc
    rw [string_data_append, string_data_append] at hc
    simp only [List.mem_append] at hc
    rcases hc with (hc | hc) | hc
    · exact jsonToStr_ne_zero x c hc
    · simp at hc; subst hc; decide
    · exact jsonListToStr_ne_zero (y :: rest) c hc

theorem jsonObjToStr_ne_zero (kvs : List (String × Json)) :
    ∀ c ∈ (jsonObjToStr kvs).data, c.toNat ≠ 0 := by
  intro c hc
  match kvs with
  | [] => revert c hc; decide
  | [(k, v)] =>
    unfold jsonObjToStr at hc
    rw [string_data_append, string_data_append] at hc
    simp only [List.mem_append] at hc
    rcases hc with (hc | hc) | hc
    · exact jsonStrLit_ne_zero k c hc
    · simp at hc; subst hc; decide
    · exact jsonToStr_ne_zero v c hc
  | (k, v) :: e :: rest =>
    unfold jsonObjToStr at hc
    rw [string_data_append, string_data_append, string_data_append, string_data_append] at hc
    simp only [List.mem_append] at hc
    rcases hc with (((hc | hc) | hc) | hc) | hc
    · exact jsonStrLit_ne_zero k c hc
    · simp at hc; subst hc; decide
    · exact jsonToStr_ne_zero v c hc
    · simp at hc; subst hc; decide
    · exact jsonObjToStr_ne_zero (e :: rest) c hc
end

theorem cstringNew_jsonToStr_ok (j : Json) :
    cstringNew (jsonToStr j) = Except.ok (jsonToStr j) :=
  cstringNew_ok_of_ne_zero _ (strBytes_ne_zero _ (jsonToStr_ne_zero j))

/-- C2: when the render call reaches the foreign entry point, a non-empty
error buffer forces the failure outcome carrying the (decoded) error message,
regardless of the output buffer's content, and an empty error buffer forces
the success outcome carrying the (decoded) output buffer content. -/
theorem render_error_buffer_decides_outcome (env : Engine) (t j : String) (esc : Bool)
    (st : FfiState) (ht : cstringNew t = Except.ok t) (hj : cstringNew j = Except.ok j) :
    (cstrBytes (env t j esc).2 ≠ [] →
      (render_template env t (Except.ok j) esc st).1 =
        Except.error ⟨utf8Lossy (cstrBytes (env t j esc).2)⟩) ∧
    (cstrBytes (env t j esc).2 = [] →
      (render_template env t (Except.ok j) esc st).1 =
        Except.ok (utf8Lossy (cstrBytes (env t j esc).1))) := by
  rw [render_template_ok_path env t j esc st ht hj]
  constructor
  · intro hne
    rw [if_pos (fun h => hne ((utf8Lossy_eq_empty_iff _).mp h))]
  · intro he
    rw [he, if_neg (by simp [utf8Lossy_nil])]

/-- Witness for C2 at a concrete input: the stub engine returns a non-empty
error buffer, so the outcome is the failure carrying its decoded content. -/
theorem render_error_buffer_decides_outcome_witness :
    (render_template engineConstErr "T" (Except.ok "D") true ⟨0, []⟩).1 =
      Except.error ⟨msgInvalidTemplate⟩ := by
  have h := (render_error_buffer_decides_outcome engineConstErr "T" "D" true ⟨0, []⟩
    (by decide) (by decide)).1 (by decide)
  rw [h]
  decide

/-- C9: rendering is deterministic — the outcome of a render call depends only
on the template text, the data's serialization, and the flag, not on the FFI
state the call starts from (so two calls with the same inputs agree). -/
theorem render_deterministic (env : Engine) (t : String) (ser : Except String String)
    (esc : Bool) (st st' : FfiState) :
    (render_template env t ser esc st).1 = (render_template env t ser esc st').1 := by
  rcases hc : cstringNew t with e | ct
  · simp [render_template, hc]
  rcases hs : ser with e | j
  · simp [render_template, hc]
  rcases hj : cstringNew j with e | cj
  · simp [render_template, hc, hj]
  · simp only [render_template, hc, hj, RenderTemplate]
    split <;> rfl

/-- C10: invalid UTF-8 in a returned buffer never makes the call fail — the
outcome is success exactly when the error buffer is empty, and on success the
output buffer is decoded lossily (invalid sequences become replacement
characters), whatever bytes it holds. -/
theorem render_lossy_never_fails_on_invalid_utf8 (env : Engine) (t j : String) (esc : Bool)
    (st : FfiState) (ht : cstringNew t = Except.ok t) (hj : cstringNew j = Except.ok j) :
    ((∃ s, (render_template env t (Except.ok j) esc st).1 = Except.ok s) ↔
      cstrBytes (env t j esc).2 = []) ∧
    (cstrBytes (env t j esc).2 = [] →
      (render_template env t (Except.ok j) esc st).1 =
        Except.ok (utf8Lossy (cstrBytes (env t j esc).1))) := by
  rw [render_template_ok_path env t j esc st ht hj]
  constructor
  · constructor
    · rintro ⟨s, hs⟩
      by_contra hne
      rw [if_pos (fun h => hne ((utf8Lossy_eq_empty_iff _).mp h))] at hs
      cases hs
    · intro he
      rw [he, if_neg (by simp [utf8Lossy_nil])]
      exact ⟨_, rfl⟩
  · intro he
    rw [he, if_neg (by simp [utf8Lossy_nil])]

/-- Witness for C10 at a concrete input: the stub engine's output buffer is
`[0x48, 0xFF, 0x69]` (invalid UTF-8); the call succeeds and the 0xFF byte is
decoded as the replacement character. -/
theorem render_lossy_never_fails_on_invalid_utf8_witness :
    (render_template engineBadUtf8 "T" (Except.ok "D") true ⟨0, []⟩).1 =
      Except.ok (String.mk [Char.ofNat 0x48, fffd, Char.ofNat 0x69]) := by
  have h := (render_lossy_never_fails_on_invalid_utf8 engineBadUtf8 "T" "D" true ⟨0, []⟩
    (by decide) (by decide)).2 (by decide)
  rw [h]
  decide

/-- C7 (modelled from the spec, the builder variant being absent from src/):
a fresh builder finalized without calling any setter yields the conservative
defaults. -/
theorem builder_defaults :
    Builder.new.build = ⟨true, MissingKeyPolicy.ErrorOnMissing⟩ := rfl

/-- C8 (engine modelled from the spec): rendering the documented example
template with the documented data succeeds with exactly the documented output,
for either value of the escape flag. -/
theorem render_hello_moyan (esc : Bool) :
    (renderJson goEngine "Hello, \x7b\x7b.name\x7d\x7d! You are \x7b\x7b.age\x7d\x7d years old."
      (Json.obj [("age", Json.int 30), ("name", Json.str "MoYan")]) esc ⟨0, []⟩).1 =
      Except.ok "Hello, MoYan! You are 30 years old." := by
  cases esc <;> decide

set_option maxRecDepth 4000 in
/-- C5 counterexample: two failures of different categories — one an
invalid-input failure raised before the boundary (no call event), one an
execution failure reported by the engine (one call event) — are equal as
`TemplateError` values, so the error type cannot be a tagged union of
distinguishable variants; it is one flat string. -/
theorem templateError_not_tagged_union_counterexample :
    (render_template engineEmpty nulTemplate (Except.ok "D") true ⟨0, []⟩).1 =
      (render_template engineConstErr "T" (Except.ok "D") true ⟨0, []⟩).1 ∧
    (render_template engineEmpty nulTemplate (Except.ok "D") true ⟨0, []⟩).1 =
      Except.error ⟨msgInvalidTemplate⟩ ∧
    callsOf (render_template engineEmpty nulTemplate (Except.ok "D") true ⟨0, []⟩).2.events = [] ∧
    (callsOf (render_template engineConstErr "T" (Except.ok "D") true ⟨0, []⟩).2.events).length = 1 := by
  refine ⟨?_, ?_, ?_, ?_⟩ <;> decide

/-- C5 amended: every render outcome is either a success carrying a string or
a failure carrying the single-constructor `TemplateError`, which wraps one
flat message string (no variant tag callers could branch on). -/
theorem render_failures_are_flat_strings (env : Engine) (t : String)
    (ser : Except String String) (esc : Bool) (st : FfiState) :
    (∃ s, (render_template env t ser esc st).1 = Except.ok s) ∨
    (∃ m, (render_template env t ser esc st).1 = Except.error (TemplateError.mk m)) := by
  cases h : (render_template env t ser esc st).1 with
  | ok s => exact Or.inl ⟨s, rfl⟩
  | error e => exact Or.inr ⟨e.msg, rfl⟩

/-- C3 counterexample: a data value holding a string with an embedded nul
byte does not make the call fail with an invalid-input error and does not
bypass the boundary — the render call succeeds and the foreign entry point is
invoked (one call event), because JSON serialization escapes the nul. -/
theorem nul_in_data_reaches_boundary_counterexample :
    (renderJson engineEmpty "T" nulData true ⟨0, []⟩).1 = Except.ok "" ∧
    (callsOf (renderJson engineEmpty "T" nulData true ⟨0, []⟩).2.events).length = 1 := by
  constructor <;> decide

theorem render_calls_once (env : Engine) (t j : String) (esc : Bool) (n : Nat)
    (ht : cstringNew t = Except.ok t) (hj : cstringNew j = Except.ok j) :
    (callsOf (render_template env t (Except.ok j) esc ⟨n, []⟩).2.events).length = 1 := by
  simp only [render_template, ht, hj, RenderTemplate, FreeResultString]
  split <;>
    simp [callsOf_append, callsOf, List.filterMap_cons]

/-- C3 amended: (a) a template containing an embedded nul byte at byte
position `i` fails before the boundary with the invalid-input message naming
`i`, leaving the FFI state untouched; (b) every string whose bytes are free
of nul marshals successfully (this includes the empty string); (c) but a nul
byte inside a string value of the data does not cause such a failure: the
serialized form of any JSON value is nul-free (control characters are escaped
as text), so the marshaled data always converts and — for any nul-free
template — the foreign entry point is invoked exactly once. -/
theorem nul_byte_marshaling (env : Engine) (t : String) (ser : Except String String)
    (esc : Bool) (st : FfiState) (i : Nat)
    (hi : (strBytes t).findIdx? (fun b => b == 0) = some i) :
    ((render_template env t ser esc st).1 =
      Except.error ⟨"Failed to convert template content to CString: nul byte found in provided data at position: " ++ natToStr i⟩ ∧
     (render_template env t ser esc st).2 = st) ∧
    (∀ s : String, (∀ b ∈ strBytes s, b ≠ 0) → cstringNew s = Except.ok s) ∧
    (∀ data : Json, cstringNew (jsonToStr data) = Except.ok (jsonToStr data)) ∧
    (∀ (env2 : Engine) (t2 : String) (data : Json) (esc2 : Bool) (n : Nat),
      cstringNew t2 = Except.ok t2 →
      (callsOf (renderJson env2 t2 data esc2 ⟨n, []⟩).2.events).length = 1) := by
  refine ⟨?_, cstringNew_ok_of_ne_zero, cstringNew_jsonToStr_ok, ?_⟩
  · have hc : cstringNew t =
        Except.error ("nul byte found in provided data at position: " ++ natToStr i) := by
      unfold cstringNew
      rw [hi]
    simp only [render_template, hc]
    refine ⟨?_, trivial⟩
    rw [← String.append_assoc]
    congr 1
  · intro env2 t2 data esc2 n ht2
    exact render_calls_once env2 t2 (jsonToStr data) esc2 n ht2 (cstringNew_jsonToStr_ok data)

/-- Witness for C3 at concrete inputs: the nul template fails with the
invalid-input message before the boundary; the empty string marshals; the
nul-containing data value serializes to a nul-free marshalable string; and
rendering it invokes the entry point exactly once. -/
theorem nul_byte_marshaling_witness :
    ((render_template engineEmpty nulTemplate (Except.ok "D") true ⟨0, []⟩).1 =
      Except.error ⟨"Failed to convert template content to CString: nul byte found in provided data at position: " ++ natToStr 0⟩ ∧
     (render_template engineEmpty nulTemplate (Except.ok "D") true ⟨0, []⟩).2 = (⟨0, []⟩ : FfiState)) ∧
    cstringNew "" = Except.ok "" ∧
    cstringNew (jsonToStr nulData) = Except.ok (jsonToStr nulData) ∧
    (callsOf (renderJson engineEmpty "T" nulData true ⟨0, []⟩).2.events).length = 1 := by
  have h := nul_byte_marshaling engineEmpty nulTemplate (Except.ok "D") true ⟨0, []⟩ 0 (by decide)
  exact ⟨h.1, h.2.1 "" (by decide), h.2.2.1 nulData,
    h.2.2.2 engineEmpty "T" nulData true 0 (by decide)⟩

/-- C4 counterexample: when the template itself contains an embedded nul and
the data's serialization fails, the call returns the invalid-input marshaling
error, not the serialization failure — template marshaling runs first. -/
theorem serialization_error_not_always_surfaced_counterexample :
    (render_template engineEmpty nulTemplate
      (Except.error "failed to serialize intentionally") true ⟨0, []⟩).1 =
      Except.error ⟨msgInvalidTemplate⟩ ∧
    (render_template engineEmpty nulTemplate
      (Except.error "failed to serialize intentionally") true ⟨0, []⟩).1 ≠
      Except.error ⟨"Failed to serialize data to JSON: failed to serialize intentionally"⟩ := by
  constructor <;> decide

/-- C4 amended: provided the template text itself marshals (contains no
embedded nul byte — template conversion runs first and takes precedence), a
data value whose serialization reports an error makes the render call return
the serialization failure carrying the serializer's message, and the FFI
state is returned untouched: the foreign entry point is invoked zero times. -/
theorem serialization_failure_before_boundary (env : Engine) (t m : String) (esc : Bool)
    (st : FfiState) (ht : cstringNew t = Except.ok t) :
    (render_template env t (Except.error m) esc st).1 =
      Except.error ⟨"Failed to serialize data to JSON: " ++ m⟩ ∧
    (render_template env t (Except.error m) esc st).2 = st := by
  simp [render_template, ht]

/-- Witness for C4's amended claim at a concrete input: a failing serializer
(the message the repository's own test uses) surfaces as the serialization
failure and leaves the FFI state untouched. -/
theorem serialization_failure_before_boundary_witness :
    (render_template engineEmpty "T" (Except.error "failed to serialize intentionally")
      true ⟨0, []⟩).1 =
      Except.error ⟨"Failed to serialize data to JSON: failed to serialize intentionally"⟩ ∧
    (render_template engineEmpty "T" (Except.error "failed to serialize intentionally")
      true ⟨0, []⟩).2 = (⟨0, []⟩ : FfiState) := by
  have h := serialization_failure_before_boundary engineEmpty "T"
    "failed to serialize intentionally" true ⟨0, []⟩ (by decide)
  exact ⟨by rw [h.1]; decide, h.2⟩

/-- C6 counterexample: in the one invocation a concrete render performs, the
foreign entry point receives exactly three positional arguments — the
template buffer, the data buffer and the `escape_html` flag; there is no
fourth missing-key-policy argument. -/
theorem ffi_call_has_three_args_counterexample :
    callsOf (render_template engineEmpty "T" (Except.ok "D") true ⟨0, []⟩).2.events =
      [[FfiArg.str "T", FfiArg.str "D", FfiArg.boolean true]] ∧
    ([FfiArg.str "T", FfiArg.str "D", FfiArg.boolean true] : List FfiArg).length = 3 := by
  constructor <;> decide

/-- C6 amended: every invocation of the foreign entry point passes exactly
the template buffer, the data buffer, and the single configuration flag
`escape_html`, positionally, in that order. -/
theorem ffi_call_args (env : Engine) (t j : String) (esc : Bool) (n : Nat)
    (args : List FfiArg)
    (h : Event.call args ∈ (render_template env t (Except.ok j) esc ⟨n, []⟩).2.events) :
    args = [FfiArg.str t, FfiArg.str j, FfiArg.boolean esc] := by
  rcases render_template_state env t (Except.ok j) esc ⟨n, []⟩ with heq | ⟨j', hj', heq⟩
  · rw [heq] at h
    simp [callsOf] at h
  · rw [heq] at h
    have hjj : j = j' := by injection hj'
    subst hjj
    simp at h
    exact h

/-- Witness for C6's amended claim: the membership hypothesis is discharged
at a concrete render whose trace contains the three-argument call event. -/
theorem ffi_call_args_witness :
    ([FfiArg.str "T", FfiArg.str "D", FfiArg.boolean false] : List FfiArg) =
      [FfiArg.str "T", FfiArg.str "D", FfiArg.boolean false] :=
  ffi_call_args engineEmpty "T" "D" false 0
    [FfiArg.str "T", FfiArg.str "D", FfiArg.boolean false] (by decide)
